import Mathlib

/-
Verification development for the EximGPT frontend coordination core:
the shared-WebSocket leader/follower service (SharedWebSocketService),
the offline response cache (ResponseCacheService), and the bounded
LRU session store (useChatSessions).

Each definition is a shallow embedding of the corresponding JavaScript
function; JSON.parse is modelled abstractly (a stored string either
parses to a structured value or is corrupt), and a thrown exception is
modelled as `Except.error ()`.
-/

namespace EximGPT

/-! Constants, from the source files. -/

def LEADER_KEY : String := "exim-ws-leader"
def LEADER_HEARTBEAT_INTERVAL : Nat := 2000
def LEADER_TIMEOUT : Nat := 5000
def VISIBILITY_FAILOVER_MS : Nat := 3000
def CONNECTION_DEBOUNCE_MS : Nat := 300
def CACHE_EXPIRY_MS : Nat := 24 * 60 * 60 * 1000
def MAX_ACTIVE_SESSIONS : Nat := 6

/-! A model of JavaScript JSON values. -/

inductive Json where
  | null
  | bool (b : Bool)
  | num (n : Int)
  | str (s : String)
  | arr (xs : List Json)
  | obj (fields : List (String × Json))

/-- Own enumerable properties produced by a JS object-literal spread
`\x7b...v\x7d`: an object's fields; an array's or string's index
properties; nothing for primitives. -/
def spreadFields : Json → List (String × Json)
  | .obj fs => fs
  | .arr xs => xs.enum.map (fun p => (toString p.1, p.2))
  | .str s => s.data.enum.map (fun p => (toString p.1, Json.str (String.mk [p.2])))
  | _ => []

/-- Set key `k` to `v` in an object field list; a later literal key wins
over a spread key of the same name, as in JS. -/
def setKey (fs : List (String × Json)) (k : String) (v : Json) : List (String × Json) :=
  fs.filter (fun p => p.1 ≠ k) ++ [(k, v)]

/-- Look a key up in a JSON value; `none` unless it is an object with
that key. -/
def lookupKey (j : Json) (k : String) : Option Json :=
  match j with
  | .obj fs => fs.lookup k
  | _ => none

def isObj : Json → Bool
  | .obj _ => true
  | _ => false

/-- A payload handed to `_sendViaWebSocket`: either a string (which the
code tries to JSON.parse) or an already-structured value. -/
inductive SendPayload where
  | text (s : String)
  | val (v : Json)

/-- The frame built by `_sendViaWebSocket` lines 344-352: a parsable
string or structured payload is spread and `threadId` injected on top;
an unparsable string is wrapped as ⦃threadId, content: payload⦄.
`parse` is the abstract JSON.parse partial function. -/
def sendFrame (parse : String → Option Json) (threadId : String) : SendPayload → Json
  | .text s =>
      match parse s with
      | some v => .obj (setKey (spreadFields v) "threadId" (.str threadId))
      | none => .obj [("threadId", .str threadId), ("content", .str s)]
  | .val v => .obj (setKey (spreadFields v) "threadId" (.str threadId))

/-! The shared WebSocket service state. -/

inductive ReadyState where
  | connecting
  | open_
  | closing
  | closed
deriving DecidableEq

inductive BroadcastMsg where
  | leaderElected (tabId : String)
  | registerThread (threadId : String) (originTabId : String)
  | unregisterThread (threadId : String) (originTabId : String)
  | sendMsg (threadId : String) (message : SendPayload) (originTabId : String)
  | messageReceived (threadId : String) (message : Json) (originTabId : String)

/-- Per-tab state of SharedWebSocketService. `sent` is the trace of
frames actually transmitted on the socket, `broadcasts` the trace of
messages posted on the BroadcastChannel, `notified` the trace of local
subscriber notifications; the timers are modelled as pending flags. -/
structure WSState where
  tabId : String
  isLeader : Bool
  socket : Option ReadyState
  messageQueue : List Json
  activeThreads : List String
  connectTimer : Bool
  disconnectTimer : Bool
  sent : List Json
  broadcasts : List BroadcastMsg
  notified : List (String × Json)

/-- JS `Set.add`: append if absent (insertion order preserved). -/
def insertThread (l : List String) (t : String) : List String :=
  if t ∈ l then l else l ++ [t]

/-- `_scheduleConnect`: cancel a pending disconnect; no-op when the
socket is already open or connecting; otherwise arm the connect timer. -/
def scheduleConnect (st : WSState) : WSState :=
  let st := { st with disconnectTimer := false }
  if st.socket = some ReadyState.open_ ∨ st.socket = some ReadyState.connecting then st
  else { st with connectTimer := true }

/-- `_scheduleDisconnect`: cancel a pending connect, arm the disconnect
timer. -/
def scheduleDisconnect (st : WSState) : WSState :=
  { st with connectTimer := false, disconnectTimer := true }

/-- `_sendViaWebSocket(threadId, payload)`: false unless leader; send
immediately when the socket is open; append to the queue when it is
connecting; otherwise false. Returns the new state and the boolean the
JS function returns. -/
def sendViaWebSocket (parse : String → Option Json) (st : WSState)
    (threadId : String) (payload : SendPayload) : WSState × Bool :=
  if st.isLeader = false then (st, false)
  else
    let message := sendFrame parse threadId payload
    if st.socket = some ReadyState.open_ then
      ({ st with sent := st.sent ++ [message] }, true)
    else if st.socket = some ReadyState.connecting then
      ({ st with messageQueue := st.messageQueue ++ [message] }, true)
    else (st, false)

/-- Public `sendMessage(threadId, text)`: leaders delegate to
`_sendViaWebSocket`; followers post a SEND_MESSAGE broadcast and return
true. Total, so it never throws. -/
def sendMessage (parse : String → Option Json) (st : WSState)
    (threadId : String) (payload : SendPayload) : WSState × Bool :=
  if st.isLeader then sendViaWebSocket parse st threadId payload
  else
    ({ st with broadcasts :=
        st.broadcasts ++ [BroadcastMsg.sendMsg threadId payload st.tabId] }, true)

/-- `_flushMessageQueue`: nothing when empty; otherwise each queued
frame is sent (the socket-open check holds for every iteration or for
none, the state being constant over the loop) and the queue cleared. -/
def flushMessageQueue (st : WSState) : WSState :=
  match st.messageQueue with
  | [] => st
  | _ :: _ =>
      { st with
        sent := st.sent ++ (if st.socket = some ReadyState.open_ then st.messageQueue else []),
        messageQueue := [] }

/-- `socket.onopen`: the socket has become open and the queue is
flushed immediately. -/
def handleOpen (st : WSState) : WSState :=
  flushMessageQueue { st with socket := some ReadyState.open_ }

/-- Public `connectThread(threadId)`: the id is added to the local
`activeThreads` unconditionally; then the leader schedules a connect
while a follower posts a REGISTER_THREAD broadcast. -/
def connectThread (st : WSState) (threadId : String) : WSState :=
  let st := { st with activeThreads := insertThread st.activeThreads threadId }
  if st.isLeader then scheduleConnect st
  else
    { st with broadcasts :=
        st.broadcasts ++ [BroadcastMsg.registerThread threadId st.tabId] }

/-- Public `disconnectThread(threadId)`. -/
def disconnectThread (st : WSState) (threadId : String) : WSState :=
  let st := { st with activeThreads := st.activeThreads.filter (fun t => t ≠ threadId) }
  if st.isLeader then
    if st.activeThreads = [] then scheduleDisconnect st else st
  else
    { st with broadcasts :=
        st.broadcasts ++ [BroadcastMsg.unregisterThread threadId st.tabId] }

/-- `_resignAsLeader`. -/
def resignAsLeader (st : WSState) : WSState :=
  if st.isLeader = false then st else { st with isLeader := false }

/-- `_handleBroadcast`, the BroadcastChannel message handler. -/
def handleBroadcast (parse : String → Option Json) (st : WSState) :
    BroadcastMsg → WSState
  | .leaderElected tabId =>
      if tabId ≠ st.tabId then resignAsLeader st else st
  | .registerThread threadId originTabId =>
      if st.isLeader ∧ originTabId ≠ st.tabId then
        scheduleConnect { st with activeThreads := insertThread st.activeThreads threadId }
      else st
  | .unregisterThread threadId originTabId =>
      if st.isLeader ∧ originTabId ≠ st.tabId then
        let st := { st with activeThreads := st.activeThreads.filter (fun t => t ≠ threadId) }
        if st.activeThreads = [] then scheduleDisconnect st else st
      else st
  | .sendMsg threadId message originTabId =>
      if st.isLeader ∧ originTabId ≠ st.tabId then
        (sendViaWebSocket parse st threadId message).1
      else st
  | .messageReceived threadId message originTabId =>
      if originTabId ≠ st.tabId then
        { st with notified := st.notified ++ [(threadId, message)] }
      else st

/-! Leader election over the persisted ownership record. -/

/-- The persisted leader record `⦃tabId, timestamp⦄`. -/
structure LeaderRec where
  tabId : String
  timestamp : Nat

/-- What a localStorage read can yield: no value, a string JSON.parse
rejects, or a string parsing to the expected shape. -/
inductive Stored (α : Type) where
  | absent
  | corrupt (raw : String)
  | valid (v : α)

inductive ElectionOutcome where
  | leader
  | follower (leaderId : String)

def ElectionOutcome.toIsLeader : ElectionOutcome → Bool
  | .leader => true
  | .follower _ => false

/-- `_attemptLeaderElection`: JSON.parse is applied to a present record
with no try/catch, so a corrupt record throws (`Except.error`). With a
fresh record naming another tab the context stays follower; otherwise
it becomes leader. -/
def attemptLeaderElection (self : String) (now : Nat)
    (stored : Stored LeaderRec) : Except Unit ElectionOutcome :=
  match stored with
  | .absent => .ok .leader
  | .corrupt _ => .error ()
  | .valid rec =>
      if now - rec.timestamp < LEADER_TIMEOUT ∧ rec.tabId ≠ self then
        .ok (.follower rec.tabId)
      else .ok .leader

/-- `_attemptAggressiveLeaderElection` (visibility failover): takeover
when the record is absent, or when its age strictly exceeds
VISIBILITY_FAILOVER_MS and it names another tab; a corrupt record
throws. `.ok true` means the context becomes leader. -/
def attemptAggressiveLeaderElection (self : String) (now : Nat)
    (stored : Stored LeaderRec) : Except Unit Bool :=
  match stored with
  | .absent => .ok true
  | .corrupt _ => .error ()
  | .valid rec =>
      if VISIBILITY_FAILOVER_MS < now - rec.timestamp ∧ rec.tabId ≠ self then
        .ok true
      else .ok false

/-- `_handleVisibilityChange` leadership outcome for a context that
becomes visible: a hidden document or a current leader keeps its
leadership; a visible follower runs the aggressive election. -/
def handleVisibilityChange (self : String) (now : Nat) (isLeader : Bool)
    (hidden : Bool) (stored : Stored LeaderRec) : Except Unit Bool :=
  if hidden then .ok isLeader
  else if isLeader then .ok true
  else attemptAggressiveLeaderElection self now stored

/-- `_handleStorageChange`: ignore other keys; a removed record
re-runs the election against the current stored value; a present
record is JSON.parsed with no try/catch, so a corrupt new value
throws; a valid record naming another tab makes a leader resign.
Returns the resulting `isLeader`. -/
def handleStorageChange (self : String) (now : Nat) (isLeader : Bool)
    (key : String) (newValue : Stored LeaderRec) (current : Stored LeaderRec) :
    Except Unit Bool :=
  if key ≠ LEADER_KEY then .ok isLeader
  else
    match newValue with
    | .absent => (attemptLeaderElection self now current).map ElectionOutcome.toIsLeader
    | .corrupt _ => .error ()
    | .valid rec =>
        if rec.tabId ≠ self ∧ isLeader then .ok false else .ok isLeader

/-! The response cache (ResponseCacheService). -/

/-- A cached entry `⦃response, cachedAt⦄`. -/
structure CacheEntry where
  response : Json
  cachedAt : Nat

/-- `getAndClearCache(threadId)` acting on the stored list for that
thread: absent reads return []; a corrupt value makes JSON.parse throw
before `removeItem` runs, so the catch returns [] and the corrupt value
stays; a valid list is removed from storage, filtered to entries
younger than CACHE_EXPIRY_MS, and returned in order. -/
def getAndClearCache (now : Nat) (stored : Stored (List CacheEntry)) :
    List Json × Stored (List CacheEntry) :=
  match stored with
  | .absent => ([], .absent)
  | .corrupt raw => ([], .corrupt raw)
  | .valid entries =>
      (((entries.filter (fun e => now - e.cachedAt < CACHE_EXPIRY_MS)).map
          (fun e => e.response)), .absent)

/-- `cacheResponse(threadId, response)`: a corrupt or absent existing
value is replaced by the empty list (inner catch), then the new entry
is appended and the whole list rewritten, so a corrupt value is healed
by the next write. -/
def cacheResponse (now : Nat) (response : Json)
    (stored : Stored (List CacheEntry)) : Stored (List CacheEntry) :=
  let existing : List CacheEntry :=
    match stored with
    | .absent => []
    | .corrupt _ => []
    | .valid entries => entries
  .valid (existing ++ [{ response := response, cachedAt := now }])

/-- `hasPendingResponses(threadId)`: false on an absent or corrupt
value, otherwise whether the parsed list is non-empty; no TTL filter
is applied. -/
def hasPendingResponses (stored : Stored (List CacheEntry)) : Bool :=
  match stored with
  | .absent => false
  | .corrupt _ => false
  | .valid entries => entries.length > 0

/-! The bounded session store (useChatSessions). -/

/-- A chat session, with the fields the hook creates. -/
structure Session where
  id : String
  messages : List Json
  inputValue : String
  title : String
  isThinking : Bool
  scrollPosition : Nat
  lastAccessedAt : Nat
  selectedFile : Option String

structure SessionsState where
  activeSessions : List Session
  activeSessionId : String

def sessionIds (l : List Session) : List String := l.map (fun s => s.id)

/-- The session object `handleNewChat` builds (also the initial
session, up to its title). -/
def newSessionObj (newId : String) (now : Nat) : Session :=
  { id := newId
    messages := []
    inputValue := ""
    title := "New Chat"
    isThinking := false
    scrollPosition := 0
    lastAccessedAt := now
    selectedFile := none }

/-- The hook's initial state: a single fresh session, active. -/
def initialState (id0 : String) (t0 : Nat) : SessionsState :=
  { activeSessions := [newSessionObj id0 t0], activeSessionId := id0 }

/-- One step of the JS `reduce` picking the session with the smallest
`lastAccessedAt` (strict comparison, so the earliest minimal session
wins ties). -/
def pickOlder (oldest s : Session) : Session :=
  if s.lastAccessedAt < oldest.lastAccessedAt then s else oldest

/-- `removeLRUSession(sessions, currentActiveId)`: drop the session
with the smallest `lastAccessedAt` among those whose id differs from
the active id; unchanged when no such session exists. The JS reduce
starts from the first excluded session and runs over the whole
excluded list. -/
def removeLRUSession (sessions : List Session) (currentActiveId : String) :
    List Session :=
  match sessions.filter (fun s => s.id ≠ currentActiveId) with
  | [] => sessions
  | e0 :: rest =>
      sessions.filter (fun s => s.id ≠ ((e0 :: rest).foldl pickOlder e0).id)

/-- `handleNewChat`: evict the LRU session when at capacity, append a
fresh session, make it active. `newId` stands for the generated uuid. -/
def handleNewChat (st : SessionsState) (newId : String) (now : Nat) :
    SessionsState :=
  { activeSessions :=
      (if MAX_ACTIVE_SESSIONS ≤ st.activeSessions.length then
        removeLRUSession st.activeSessions st.activeSessionId
      else st.activeSessions) ++ [newSessionObj newId now]
    activeSessionId := newId }

/-- The timestamp refresh `handleTabClick` and `handleLoadChat` map
over the sessions. -/
def touchSession (id : String) (now : Nat) (s : Session) : Session :=
  if s.id = id then { s with lastAccessedAt := now } else s

/-- `handleTabClick(id)`: early return when already active; otherwise
refresh the clicked session's `lastAccessedAt` and point at it. The
active pointer is set to `id` whether or not a session carries it. -/
def handleTabClick (st : SessionsState) (id : String) (now : Nat) :
    SessionsState :=
  if st.activeSessionId = id then st
  else
    { activeSessions := st.activeSessions.map (touchSession id now),
      activeSessionId := id }

/-- `handleTabClose(id)`: with a single session left, reset it in place
(fresh id, cleared fields) WITHOUT updating `activeSessionId`;
otherwise filter the id out and, when the active session was closed,
activate the last (most recently appended) survivor. An empty survivor
list would make the JS throw after the sessions were already replaced,
leaving the pointer as it was. -/
def handleTabClose (st : SessionsState) (id : String) (freshId : String) :
    SessionsState :=
  if st.activeSessions.length = 1 then
    { st with activeSessions := st.activeSessions.map (fun s =>
        if s.id = st.activeSessionId then
          { s with
            messages := []
            inputValue := ""
            title := "New Chat"
            isThinking := false
            id := freshId }
        else s) }
  else
    if st.activeSessionId = id then
      match (st.activeSessions.filter (fun s => s.id ≠ id)).getLast? with
      | some s =>
          { activeSessions := st.activeSessions.filter (fun s => s.id ≠ id)
            activeSessionId := s.id }
      | none =>
          { activeSessions := st.activeSessions.filter (fun s => s.id ≠ id)
            activeSessionId := st.activeSessionId }
    else { st with activeSessions := st.activeSessions.filter (fun s => s.id ≠ id) }

/-- The synchronous part of `handleLoadChat(threadId)`: a falsy id is
rejected; an id already present is touched and activated; otherwise a
"Loading..." session is appended (after LRU eviction at capacity) and
activated. -/
def loadingSessionObj (threadId : String) (now : Nat) : Session :=
  { id := threadId
    messages := []
    inputValue := ""
    title := "Loading..."
    isThinking := true
    scrollPosition := 0
    lastAccessedAt := now
    selectedFile := none }

def handleLoadChat (st : SessionsState) (threadId : String) (now : Nat) :
    SessionsState :=
  if threadId = "" then st
  else if st.activeSessions.any (fun s => s.id = threadId) then
    { activeSessions := st.activeSessions.map (touchSession threadId now)
      activeSessionId := threadId }
  else
    { activeSessions :=
        (if MAX_ACTIVE_SESSIONS ≤ st.activeSessions.length then
          removeLRUSession st.activeSessions st.activeSessionId
        else st.activeSessions) ++ [loadingSessionObj threadId now]
      activeSessionId := threadId }

/-- The completion of `handleLoadChat`'s fetch (success or failure
path): fields of the matching session are rewritten, ids and the
active pointer untouched. -/
def loadFetchDone (st : SessionsState) (threadId : String)
    (messages : List Json) (title : String) : SessionsState :=
  { st with activeSessions := st.activeSessions.map (fun s =>
      if s.id = threadId then
        { s with
          messages := messages
          title := title
          isThinking := false }
      else s) }

/-- The user-driven operations of the session store. `newId` and
`freshId` stand for the uuids the code generates. -/
inductive SessionOp where
  | newChat (newId : String) (now : Nat)
  | tabClick (id : String) (now : Nat)
  | loadChat (threadId : String) (now : Nat)
  | loadDone (threadId : String) (messages : List Json) (title : String)
  | tabClose (id : String) (freshId : String)

def applyOp (st : SessionsState) : SessionOp → SessionsState
  | .newChat nid now => handleNewChat st nid now
  | .tabClick id now => handleTabClick st id now
  | .loadChat tid now => handleLoadChat st tid now
  | .loadDone tid ms ti => loadFetchDone st tid ms ti
  | .tabClose id fid => handleTabClose st id fid

def applyOps (st : SessionsState) (ops : List SessionOp) : SessionsState :=
  ops.foldl applyOp st

/-- Side conditions matching how the UI drives the hook: generated
uuids are fresh and tabs clicked exist. -/
def opOK (st : SessionsState) : SessionOp → Prop
  | .newChat nid _ => nid ∉ sessionIds st.activeSessions
  | .tabClick id _ => id ∈ sessionIds st.activeSessions
  | .loadChat _ _ => True
  | .loadDone _ _ _ => True
  | .tabClose _ fid => fid ∉ sessionIds st.activeSessions

def opsOK : SessionsState → List SessionOp → Prop
  | _, [] => True
  | st, op :: rest => opOK st op ∧ opsOK (applyOp st op) rest

/-- Structural invariant: between one and MAX_ACTIVE_SESSIONS
sessions, with pairwise distinct ids. -/
def WF (st : SessionsState) : Prop :=
  1 ≤ st.activeSessions.length ∧
  st.activeSessions.length ≤ MAX_ACTIVE_SESSIONS ∧
  (sessionIds st.activeSessions).Nodup

/-- Exactly one session carries the active pointer's id. -/
def ActiveUnique (st : SessionsState) : Prop :=
  (sessionIds st.activeSessions).count st.activeSessionId = 1

/-- A sequence of sends folded through the public `sendMessage`. -/
def applySends (parse : String → Option Json) (st : WSState)
    (msgs : List (String × SendPayload)) : WSState :=
  msgs.foldl (fun s m => (sendMessage parse s m.1 m.2).1) st

/-- A follower tab with no socket, nothing queued, nothing registered. -/
def followerState : WSState :=
  { tabId := "tab_a"
    isLeader := false
    socket := none
    messageQueue := []
    activeThreads := []
    connectTimer := false
    disconnectTimer := false
    sent := []
    broadcasts := []
    notified := [] }

/-- A leader tab whose socket is open. -/
def leaderOpenState : WSState :=
  { followerState with isLeader := true, socket := some ReadyState.open_ }

/-- A leader tab whose socket is still connecting. -/
def leaderConnectingState : WSState :=
  { followerState with isLeader := true, socket := some ReadyState.connecting }

/-- A full session store: six sessions with distinct ids, the first
one active. -/
def sixState : SessionsState :=
  { activeSessions :=
      [newSessionObj ("s1") 10, newSessionObj ("s2") 3, newSessionObj ("s3") 7,
       newSessionObj ("s4") 5, newSessionObj ("s5") 9, newSessionObj ("s6") 11]
    activeSessionId := "s1" }

/-! Helper lemmas. -/

theorem lookup_setKey (fs : List (String × Json)) (k : String) (v : Json) :
    (setKey fs k v).lookup k = some v := by
  unfold setKey
  induction fs with
  | nil => simp [List.lookup]
  | cons p ps ih =>
      rw [List.filter_cons]
      by_cases h : p.1 = k
      · simpa [h] using ih
      · have hk : (k == p.1) = false := by
          simp only [beq_eq_false_iff_ne]
          exact Ne.symm h
        simp only [ne_eq, h, not_false_eq_true, decide_True, List.cons_append,
          List.lookup, hk]
        simpa using ih

theorem handleOpen_spec (st : WSState) :
    (handleOpen st).sent = st.sent ++ st.messageQueue ∧
    (handleOpen st).messageQueue = [] := by
  unfold handleOpen flushMessageQueue
  cases h : st.messageQueue with
  | nil => simp [h]
  | cons x xs => simp [h]

theorem sendMessage_connecting_step (parse : String → Option Json) (st : WSState)
    (threadId : String) (payload : SendPayload)
    (hL : st.isLeader = true) (hc : st.socket = some ReadyState.connecting) :
    (sendMessage parse st threadId payload).1
      = { st with messageQueue := st.messageQueue ++ [sendFrame parse threadId payload] } := by
  simp [sendMessage, hL, sendViaWebSocket, hc]

theorem applySends_connecting (parse : String → Option Json)
    (msgs : List (String × SendPayload)) : ∀ st : WSState,
    st.isLeader = true → st.socket = some ReadyState.connecting →
    (applySends parse st msgs).isLeader = true ∧
    (applySends parse st msgs).socket = some ReadyState.connecting ∧
    (applySends parse st msgs).sent = st.sent ∧
    (applySends parse st msgs).messageQueue
      = st.messageQueue ++ msgs.map (fun m => sendFrame parse m.1 m.2) := by
  induction msgs with
  | nil => intro st hL hc; simp [applySends, hL, hc]
  | cons m ms ih =>
      intro st hL hc
      have hstep := sendMessage_connecting_step parse st m.1 m.2 hL hc
      have happ : applySends parse st (m :: ms)
          = applySends parse ((sendMessage parse st m.1 m.2).1) ms := by
        simp [applySends, List.foldl_cons]
      rw [happ, hstep]
      have h := ih { st with messageQueue := st.messageQueue ++ [sendFrame parse m.1 m.2] }
        hL hc
      refine ⟨h.1, h.2.1, h.2.2.1, ?_⟩
      rw [h.2.2.2]
      simp

theorem foldl_pickOlder_mem (l : List Session) : ∀ a : Session,
    l.foldl pickOlder a = a ∨ l.foldl pickOlder a ∈ l := by
  induction l with
  | nil => intro a; exact Or.inl rfl
  | cons x xs ih =>
      intro a
      rw [List.foldl_cons]
      rcases ih (pickOlder a x) with h | h
      · rw [h]
        unfold pickOlder
        split
        · exact Or.inr (List.mem_cons_self x xs)
        · exact Or.inl rfl
      · exact Or.inr (List.mem_cons_of_mem x h)

theorem foldl_pickOlder_min (l : List Session) : ∀ a : Session,
    (l.foldl pickOlder a).lastAccessedAt ≤ a.lastAccessedAt ∧
    ∀ s ∈ l, (l.foldl pickOlder a).lastAccessedAt ≤ s.lastAccessedAt := by
  induction l with
  | nil =>
      intro a
      refine ⟨Nat.le_refl _, ?_⟩
      intro s hs
      cases hs
  | cons x xs ih =>
      intro a
      rw [List.foldl_cons]
      have h := ih (pickOlder a x)
      have hax : (pickOlder a x).lastAccessedAt ≤ a.lastAccessedAt ∧
          (pickOlder a x).lastAccessedAt ≤ x.lastAccessedAt := by
        unfold pickOlder
        split
        · exact ⟨Nat.le_of_lt (by assumption), Nat.le_refl _⟩
        · exact ⟨Nat.le_refl _, Nat.le_of_not_lt (by assumption)⟩
      refine ⟨Nat.le_trans h.1 hax.1, ?_⟩
      intro s hs
      rcases List.mem_cons.mp hs with rfl | hs2
      · exact Nat.le_trans h.1 hax.2
      · exact h.2 s hs2

theorem removeLRUSession_spec (sessions : List Session) (aid : String)
    (e0 : Session) (rest : List Session)
    (h : sessions.filter (fun s => s.id ≠ aid) = e0 :: rest) :
    ∃ lru, lru ∈ sessions ∧ lru.id ≠ aid ∧
      (∀ s ∈ sessions, s.id ≠ aid → lru.lastAccessedAt ≤ s.lastAccessedAt) ∧
      removeLRUSession sessions aid
        = sessions.filter (fun s => s.id ≠ lru.id) := by
  have hmemf : (e0 :: rest).foldl pickOlder e0
      ∈ sessions.filter (fun s => s.id ≠ aid) := by
    rw [h]
    rcases foldl_pickOlder_mem (e0 :: rest) e0 with he | hm
    · rw [he]; exact List.mem_cons_self _ _
    · exact hm
  refine ⟨(e0 :: rest).foldl pickOlder e0, ?_, ?_, ?_, ?_⟩
  · exact (List.mem_filter.mp hmemf).1
  · have := (List.mem_filter.mp hmemf).2
    simpa using this
  · intro s hs hsne
    have hsf : s ∈ sessions.filter (fun t => t.id ≠ aid) :=
      List.mem_filter.mpr ⟨hs, by simpa using hsne⟩
    rw [h] at hsf
    exact (foldl_pickOlder_min (e0 :: rest) e0).2 s hsf
  · unfold removeLRUSession
    rw [h]

theorem filter_ne_active_ne_nil (l : List Session) (aid : String)
    (h2 : 2 ≤ l.length) (hnd : (sessionIds l).Nodup) :
    l.filter (fun s => s.id ≠ aid) ≠ [] := by
  rcases l with _ | ⟨a, _ | ⟨b, t⟩⟩
  · simp at h2
  · simp at h2
  · intro hfil
    rw [List.filter_eq_nil_iff] at hfil
    have ha := hfil a (by simp)
    have hb := hfil b (by simp)
    simp only [ne_eq, decide_not, Bool.not_eq_true', decide_eq_false_iff_not,
      not_not] at ha hb
    have hab : a.id ≠ b.id := by
      simp only [sessionIds, List.map_cons, List.nodup_cons, List.mem_cons] at hnd
      exact fun he => hnd.1 (Or.inl he)
    exact hab (ha.trans hb.symm)

theorem filter_ne_id_length (l : List Session) (x : Session)
    (hx : x ∈ l) (hnd : (sessionIds l).Nodup) :
    (l.filter (fun s => s.id ≠ x.id)).length + 1 = l.length := by
  induction l with
  | nil => cases hx
  | cons y ys ih =>
      simp only [sessionIds, List.map_cons, List.nodup_cons] at hnd
      rw [List.filter_cons]
      by_cases hy : y.id = x.id
      · have hall : ys.filter (fun s => s.id ≠ x.id) = ys := by
          rw [List.filter_eq_self]
          intro s hs
          have hsy : ¬ s.id = x.id := by
            intro he
            apply hnd.1
            rw [hy]
            exact he ▸ List.mem_map_of_mem (fun u => u.id) hs
          simpa using hsy
        rw [if_neg (by simpa using hy), hall]
        simp
      · have hx2 : x ∈ ys := by
          rcases List.mem_cons.mp hx with rfl | hm
          · exact absurd rfl hy
          · exact hm
        have hrec := ih hx2 hnd.2
        rw [if_pos (by simpa using hy)]
        simp only [List.length_cons]
        omega

/-! Claim theorems. -/

/-- C1 counterexample: a Follower with no socket at all (neither open
nor opening) still gets `true` back from `sendMessage`, not the
failure signal `false` the claim requires for that situation. -/
theorem c1_counterexample :
    followerState.isLeader = false ∧ followerState.socket = none ∧
    (sendMessage (fun _ => none) followerState ("abc")
        (SendPayload.text ("hi"))).2 = true :=
  ⟨rfl, rfl, rfl⟩

/-- C1 (amended): `sendMessage` transmits immediately for a Leader
with an open socket and queues for a Leader with a connecting socket,
both returning true; it returns the failure signal `false` exactly
when the context is Leader and the socket is neither open nor opening;
a non-Leader call broadcasts the send request and returns true. The
function is total, so it never throws across the public boundary. -/
theorem c1_send_failure_amended (parse : String → Option Json) (st : WSState)
    (threadId : String) (payload : SendPayload) :
    (st.isLeader = true → st.socket = some ReadyState.open_ →
      sendMessage parse st threadId payload
        = ({ st with sent := st.sent ++ [sendFrame parse threadId payload] }, true)) ∧
    (st.isLeader = true → st.socket = some ReadyState.connecting →
      sendMessage parse st threadId payload
        = ({ st with messageQueue := st.messageQueue ++ [sendFrame parse threadId payload] },
            true)) ∧
    (st.isLeader = true → st.socket ≠ some ReadyState.open_ →
      st.socket ≠ some ReadyState.connecting →
      sendMessage parse st threadId payload = (st, false)) ∧
    (st.isLeader = false →
      sendMessage parse st threadId payload
        = ({ st with broadcasts := st.broadcasts
              ++ [BroadcastMsg.sendMsg threadId payload st.tabId] }, true)) := by
  refine ⟨?_, ?_, ?_, ?_⟩
  · intro hL hs
    simp [sendMessage, hL, sendViaWebSocket, hs]
  · intro hL hs
    simp [sendMessage, hL, sendViaWebSocket, hs]
  · intro hL h1 h2
    simp [sendMessage, hL, sendViaWebSocket, h1, h2]
  · intro hF
    simp [sendMessage, hF]

/-- C2 counterexample: a Follower calling `connectThread` does mutate
its own local `activeThreads`: starting empty, the set gains the id. -/
theorem c2_counterexample :
    followerState.isLeader = false ∧
    followerState.activeThreads = [] ∧
    (connectThread followerState ("abc")).activeThreads = ["abc"] :=
  ⟨rfl, rfl, rfl⟩

/-- C2 (amended): a Follower's `connectThread` adds the id to its own
local `activeThreads` AND broadcasts a registration request; the
Leader's set gains the id via the broadcast handler. -/
theorem c2_follower_register_amended (parse : String → Option Json)
    (st : WSState) (threadId origin : String) :
    (st.isLeader = false →
      (connectThread st threadId).activeThreads
          = insertThread st.activeThreads threadId ∧
      (connectThread st threadId).broadcasts
          = st.broadcasts ++ [BroadcastMsg.registerThread threadId st.tabId]) ∧
    (st.isLeader = true → origin ≠ st.tabId →
      (handleBroadcast parse st
          (BroadcastMsg.registerThread threadId origin)).activeThreads
        = insertThread st.activeThreads threadId) := by
  constructor
  · intro hF
    constructor <;> simp [connectThread, hF]
  · intro hL hO
    simp only [handleBroadcast]
    rw [if_pos ⟨hL, hO⟩]
    simp only [scheduleConnect]
    split <;> rfl

/-- C3 counterexample: the election read applies JSON.parse to the
persisted ownership record with no try/catch, so an unparsable record
makes `_attemptLeaderElection` throw instead of completing normally. -/
theorem c3_counterexample :
    attemptLeaderElection ("tab_a") 1000 (Stored.corrupt ("oops"))
      = Except.error () := rfl

/-- C3 (amended): of the three reads, only the cache read treats a
corrupt persisted value as empty and completes normally (and the next
cache write self-heals it); the election read and the storage-change
handler both throw on an unparsable ownership record. -/
theorem c3_storage_corruption_amended (raw : String) (now : Nat) :
    (getAndClearCache now (Stored.corrupt raw)).1 = [] ∧
    (∀ response, cacheResponse now response (Stored.corrupt raw)
        = Stored.valid [{ response := response, cachedAt := now }]) ∧
    (∀ self, attemptLeaderElection self now (Stored.corrupt raw)
        = Except.error ()) ∧
    (∀ self isLeader current,
      handleStorageChange self now isLeader LEADER_KEY (Stored.corrupt raw) current
        = Except.error ()) := by
  refine ⟨rfl, fun response => rfl, fun self => rfl, fun self isLeader current => ?_⟩
  simp [handleStorageChange]

/-- C4: draining a valid stored list returns its entries in original
order (a sublist of the stored responses), keeps exactly the entries
whose age is not at least CACHE_EXPIRY_MS, and a second immediate
drain of the resulting stored state returns the empty list. -/
theorem c4_drain_order_ttl (now : Nat) (entries : List CacheEntry) :
    ((getAndClearCache now (Stored.valid entries)).1).Sublist
        (entries.map (fun e => e.response)) ∧
    (getAndClearCache now (Stored.valid entries)).1
        = (entries.filter (fun e => ¬ CACHE_EXPIRY_MS ≤ now - e.cachedAt)).map
            (fun e => e.response) ∧
    (getAndClearCache now (getAndClearCache now (Stored.valid entries)).2).1 = [] := by
  refine ⟨?_, ?_, rfl⟩
  · exact (List.filter_sublist _).map _
  · show (entries.filter (fun e => now - e.cachedAt < CACHE_EXPIRY_MS)).map
        (fun e => e.response)
      = (entries.filter (fun e => ¬ CACHE_EXPIRY_MS ≤ now - e.cachedAt)).map
        (fun e => e.response)
    congr 1
    apply List.filter_congr
    intro e _
    exact decide_eq_decide.mpr (by omega)

theorem sessionIds_append (a b : List Session) :
    sessionIds (a ++ b) = sessionIds a ++ sessionIds b := by
  unfold sessionIds
  rw [List.map_append]

theorem sessionIds_map_id_preserving (f : Session → Session)
    (hf : ∀ s, (f s).id = s.id) (l : List Session) :
    sessionIds (l.map f) = sessionIds l := by
  induction l with
  | nil => rfl
  | cons x xs ih =>
      simp only [sessionIds, List.map_cons] at ih ⊢
      rw [hf x, ih]

theorem touchSession_id (id : String) (now : Nat) (s : Session) :
    (touchSession id now s).id = s.id := by
  unfold touchSession
  split <;> rfl

theorem sessionIds_filter_ne (l : List Session) (i : String) :
    sessionIds (l.filter (fun s => s.id ≠ i))
      = (sessionIds l).filter (fun x => x ≠ i) := by
  induction l with
  | nil => rfl
  | cons x xs ih =>
      simp only [sessionIds, List.map_cons, List.filter_cons]
      by_cases h : x.id = i
      · rw [if_neg (by simpa using h), if_neg (by simpa using h)]
        exact ih
      · rw [if_pos (by simpa using h), if_pos (by simpa using h)]
        simp only [List.map_cons]
        rw [show (List.map (fun s => s.id)
            (List.filter (fun s => decide (s.id ≠ i)) xs)) = sessionIds
            (List.filter (fun s => decide (s.id ≠ i)) xs) from rfl, ih]
        rfl

theorem count_filter_ne (ids : List String) (a i : String) (ha : a ≠ i) :
    (ids.filter (fun x => x ≠ i)).count a = ids.count a := by
  induction ids with
  | nil => rfl
  | cons x xs ih =>
      rw [List.filter_cons]
      by_cases h : x = i
      · rw [if_neg (by simpa using h), ih, List.count_cons]
        have hax : ¬ a = x := by
          rw [h]
          exact ha
        have hxa : ¬ x = a := fun he => hax (Eq.symm he)
        simp [hax, hxa]
      · rw [if_pos (by simpa using h), List.count_cons, List.count_cons, ih]

theorem append_fresh_facts (updated sessions : List Session) (s0 : Session)
    (hsub : updated.Sublist sessions)
    (hnd : (sessionIds sessions).Nodup) (hfresh : s0.id ∉ sessionIds sessions) :
    (sessionIds (updated ++ [s0])).Nodup ∧
    (sessionIds (updated ++ [s0])).count s0.id = 1 := by
  have hsubids : (sessionIds updated).Sublist (sessionIds sessions) :=
    hsub.map _
  have hndu : (sessionIds updated).Nodup := hnd.sublist hsubids
  have hfreshu : s0.id ∉ sessionIds updated := fun hm => hfresh (hsubids.subset hm)
  rw [sessionIds_append]
  constructor
  · rw [List.nodup_append]
    refine ⟨hndu, by simp [sessionIds], ?_⟩
    intro x hx
    simp only [sessionIds, List.map_cons, List.map_nil, List.mem_singleton]
    intro he
    exact hfreshu (he ▸ hx)
  · rw [List.count_append]
    rw [List.count_eq_zero.mpr hfreshu]
    simp [sessionIds]

theorem removeLRUSession_sublist (sessions : List Session) (aid : String) :
    (removeLRUSession sessions aid).Sublist sessions := by
  unfold removeLRUSession
  split
  · exact List.Sublist.refl _
  · exact List.filter_sublist _

theorem removeLRUSession_length_at_cap (sessions : List Session) (aid : String)
    (h2 : 2 ≤ sessions.length) (hnd : (sessionIds sessions).Nodup) :
    (removeLRUSession sessions aid).length + 1 = sessions.length := by
  cases hfil : sessions.filter (fun s => s.id ≠ aid) with
  | nil => exact absurd hfil (filter_ne_active_ne_nil _ _ h2 hnd)
  | cons e0 rest =>
      obtain ⟨lru, hmem, _, _, heq⟩ := removeLRUSession_spec _ _ e0 rest hfil
      rw [heq]
      exact filter_ne_id_length _ _ hmem hnd

theorem filter_ne_length_ge (l : List Session) (i : String)
    (hnd : (sessionIds l).Nodup) :
    l.length ≤ (l.filter (fun s => s.id ≠ i)).length + 1 := by
  induction l with
  | nil => simp
  | cons y ys ih =>
      simp only [sessionIds, List.map_cons, List.nodup_cons] at hnd
      rw [List.filter_cons]
      by_cases hy : y.id = i
      · have hall : ys.filter (fun s => s.id ≠ i) = ys := by
          rw [List.filter_eq_self]
          intro s hs
          have hsne : ¬ s.id = i := by
            intro he
            apply hnd.1
            have hse : s.id = y.id := by rw [he, hy]
            exact hse ▸ List.mem_map_of_mem (fun u => u.id) hs
          simpa using hsne
        rw [if_neg (by simpa using hy), hall]
        simp
      · rw [if_pos (by simpa using hy)]
        have := ih hnd.2
        simp only [List.length_cons]
        omega

/-- C5: with six sessions of distinct ids, `handleNewChat` removes
exactly one session — one with minimal `lastAccessedAt` among the
sessions other than the active one — appends the fresh session and
makes it active, leaving the count at six. -/
theorem c5_handleNewChat_evicts_lru (st : SessionsState) (newId : String)
    (now : Nat) (hlen : st.activeSessions.length = 6)
    (hnd : (sessionIds st.activeSessions).Nodup) :
    ∃ lru, lru ∈ st.activeSessions ∧ lru.id ≠ st.activeSessionId ∧
      (∀ s ∈ st.activeSessions, s.id ≠ st.activeSessionId →
          lru.lastAccessedAt ≤ s.lastAccessedAt) ∧
      (handleNewChat st newId now).activeSessions
          = st.activeSessions.filter (fun s => s.id ≠ lru.id)
              ++ [newSessionObj newId now] ∧
      (handleNewChat st newId now).activeSessions.length = 6 ∧
      (handleNewChat st newId now).activeSessionId = newId := by
  cases hfil : st.activeSessions.filter (fun s => s.id ≠ st.activeSessionId) with
  | nil =>
      exact absurd hfil (filter_ne_active_ne_nil _ _ (by omega) hnd)
  | cons e0 rest =>
      obtain ⟨lru, hmem, hne, hmin, heq⟩ := removeLRUSession_spec _ _ e0 rest hfil
      have hcap : MAX_ACTIVE_SESSIONS ≤ st.activeSessions.length := by
        rw [hlen]
        exact Nat.le_refl _
      have hNC : (handleNewChat st newId now).activeSessions
          = removeLRUSession st.activeSessions st.activeSessionId
              ++ [newSessionObj newId now] := by
        unfold handleNewChat
        rw [if_pos hcap]
      refine ⟨lru, hmem, hne, hmin, ?_, ?_, rfl⟩
      · rw [hNC, heq]
      · rw [hNC, heq, List.length_append]
        have hfl := filter_ne_id_length st.activeSessions lru hmem hnd
        simp only [List.length_singleton]
        omega

/-- C5 witness: creating a seventh chat in the concrete full store
keeps the count at six. -/
theorem c5_witness :
    (handleNewChat sixState ("s7") 100).activeSessions.length = 6 := by
  obtain ⟨lru, hm, hne, hmin, heq, hlen6, hid⟩ :=
    c5_handleNewChat_evicts_lru sixState ("s7") 100 rfl (by decide)
  exact hlen6

/-- C6: all payloads sent through `sendMessage` while the Leader's
socket is connecting end up in the message queue in FIFO call order
(nothing is transmitted yet), and the open event flushes them: the
transmitted trace gains exactly the queued frames, once, in order, and
the queue becomes empty. -/
theorem c6_queue_flush_fifo (parse : String → Option Json) (st : WSState)
    (msgs : List (String × SendPayload))
    (hL : st.isLeader = true) (hc : st.socket = some ReadyState.connecting) :
    (applySends parse st msgs).messageQueue
        = st.messageQueue ++ msgs.map (fun m => sendFrame parse m.1 m.2) ∧
    (applySends parse st msgs).sent = st.sent ∧
    (handleOpen (applySends parse st msgs)).sent
        = st.sent ++ st.messageQueue ++ msgs.map (fun m => sendFrame parse m.1 m.2) ∧
    (handleOpen (applySends parse st msgs)).messageQueue = [] := by
  have h := applySends_connecting parse msgs st hL hc
  have hopen := handleOpen_spec (applySends parse st msgs)
  refine ⟨h.2.2.2, h.2.2.1, ?_, hopen.2⟩
  rw [hopen.1, h.2.2.1, h.2.2.2, List.append_assoc]

/-- C6 witness: two sends queued while connecting are flushed on open,
leaving an empty queue and exactly the two frames transmitted. -/
theorem c6_witness :
    (handleOpen (applySends (fun _ => none) leaderConnectingState
        [("t1", SendPayload.text ("a")), ("t2", SendPayload.text ("b"))])).messageQueue
      = [] :=
  (c6_queue_flush_fifo (fun _ => none) leaderConnectingState
    [("t1", SendPayload.text ("a")), ("t2", SendPayload.text ("b"))] rfl rfl).2.2.2

theorem count_eq_one_of_nodup_mem (l : List String) (a : String)
    (hnd : l.Nodup) (ha : a ∈ l) : l.count a = 1 := by
  induction l with
  | nil => cases ha
  | cons x xs ih =>
      rw [List.nodup_cons] at hnd
      rcases List.mem_cons.mp ha with rfl | hm
      · rw [List.count_cons]
        simp [List.count_eq_zero.mpr hnd.1]
      · rw [List.count_cons]
        have hax : ¬ a = x := fun he => hnd.1 (he ▸ hm)
        have hxa : ¬ x = a := fun he => hax (Eq.symm he)
        simp [hax, hxa, ih hnd.2 hm]

theorem create_step_facts (sessions : List Session) (aid : String) (s0 : Session)
    (h1 : 1 ≤ sessions.length) (h6 : sessions.length ≤ MAX_ACTIVE_SESSIONS)
    (hnd : (sessionIds sessions).Nodup) (hfresh : s0.id ∉ sessionIds sessions) :
    1 ≤ ((if MAX_ACTIVE_SESSIONS ≤ sessions.length
        then removeLRUSession sessions aid else sessions) ++ [s0]).length ∧
    ((if MAX_ACTIVE_SESSIONS ≤ sessions.length
        then removeLRUSession sessions aid else sessions) ++ [s0]).length
        ≤ MAX_ACTIVE_SESSIONS ∧
    (sessionIds ((if MAX_ACTIVE_SESSIONS ≤ sessions.length
        then removeLRUSession sessions aid else sessions) ++ [s0])).Nodup ∧
    (sessionIds ((if MAX_ACTIVE_SESSIONS ≤ sessions.length
        then removeLRUSession sessions aid else sessions) ++ [s0])).count s0.id
        = 1 := by
  by_cases hc : MAX_ACTIVE_SESSIONS ≤ sessions.length
  · rw [if_pos hc]
    have h2 : 2 ≤ sessions.length := by
      unfold MAX_ACTIVE_SESSIONS at hc
      omega
    have hlen := removeLRUSession_length_at_cap sessions aid h2 hnd
    have hsub := removeLRUSession_sublist sessions aid
    have hff := append_fresh_facts _ sessions s0 hsub hnd hfresh
    refine ⟨by simp, ?_, hff.1, hff.2⟩
    rw [List.length_append]
    simp only [List.length_singleton]
    unfold MAX_ACTIVE_SESSIONS at h6 ⊢
    omega
  · rw [if_neg hc]
    have hff := append_fresh_facts sessions sessions s0
      (List.Sublist.refl _) hnd hfresh
    refine ⟨by simp, ?_, hff.1, hff.2⟩
    rw [List.length_append]
    simp only [List.length_singleton]
    unfold MAX_ACTIVE_SESSIONS at hc h6 ⊢
    omega

theorem wf_applyOp (st : SessionsState) (op : SessionOp)
    (hwf : WF st) (hok : opOK st op) : WF (applyOp st op) := by
  obtain ⟨h1, h6, hnd⟩ := hwf
  cases op with
  | newChat nid now =>
      have hfresh : (newSessionObj nid now).id ∉ sessionIds st.activeSessions :=
        hok
      have hff := create_step_facts st.activeSessions st.activeSessionId
        (newSessionObj nid now) h1 h6 hnd hfresh
      exact ⟨hff.1, hff.2.1, hff.2.2.1⟩
  | tabClick id now =>
      show WF (handleTabClick st id now)
      unfold handleTabClick
      by_cases h : st.activeSessionId = id
      · rw [if_pos h]
        exact ⟨h1, h6, hnd⟩
      · rw [if_neg h]
        refine ⟨by simpa using h1, by simpa using h6, ?_⟩
        rw [show sessionIds ((st.activeSessions.map (touchSession id now)))
            = sessionIds st.activeSessions from
          sessionIds_map_id_preserving _ (touchSession_id id now) _]
        exact hnd
  | loadChat tid now =>
      show WF (handleLoadChat st tid now)
      unfold handleLoadChat
      by_cases he : tid = ""
      · rw [if_pos he]
        exact ⟨h1, h6, hnd⟩
      · rw [if_neg he]
        by_cases hp : st.activeSessions.any (fun s => s.id = tid)
        · rw [if_pos hp]
          refine ⟨by simpa using h1, by simpa using h6, ?_⟩
          rw [sessionIds_map_id_preserving _ (touchSession_id tid now) _]
          exact hnd
        · rw [if_neg hp]
          have hfresh : (loadingSessionObj tid now).id ∉ sessionIds st.activeSessions := by
            intro hm
            apply hp
            obtain ⟨s, hs, hid⟩ := List.mem_map.mp hm
            exact List.any_eq_true.mpr ⟨s, hs, by simpa using hid⟩
          have hff := create_step_facts st.activeSessions st.activeSessionId
            (loadingSessionObj tid now) h1 h6 hnd hfresh
          exact ⟨hff.1, hff.2.1, hff.2.2.1⟩
  | loadDone tid ms ti =>
      show WF (loadFetchDone st tid ms ti)
      unfold loadFetchDone
      refine ⟨by simpa using h1, by simpa using h6, ?_⟩
      rw [sessionIds_map_id_preserving _ (fun s => by split <;> rfl) _]
      exact hnd
  | tabClose id fid =>
      show WF (handleTabClose st id fid)
      unfold handleTabClose
      by_cases hlen1 : st.activeSessions.length = 1
      · rw [if_pos hlen1]
        obtain ⟨a, ha⟩ := List.length_eq_one.mp hlen1
        refine ⟨by simpa using h1, ?_, ?_⟩
        · rw [ha]
          simp only [List.length_map, List.length_cons, List.length_nil]
          unfold MAX_ACTIVE_SESSIONS
          omega
        · rw [ha]
          simp [sessionIds]
      · rw [if_neg hlen1]
        have h2 : 2 ≤ st.activeSessions.length := by omega
        have hflen := filter_ne_length_ge st.activeSessions id hnd
        have hsub : (st.activeSessions.filter (fun s => s.id ≠ id)).Sublist
            st.activeSessions := List.filter_sublist _
        have hids : (sessionIds (st.activeSessions.filter
            (fun s => s.id ≠ id))).Nodup := hnd.sublist (hsub.map _)
        have hfl6 : (st.activeSessions.filter (fun s => s.id ≠ id)).length
            ≤ MAX_ACTIVE_SESSIONS := le_trans hsub.length_le h6
        have hfl1 : 1 ≤ (st.activeSessions.filter (fun s => s.id ≠ id)).length := by
          omega
        by_cases hacid : st.activeSessionId = id
        · rw [if_pos hacid]
          cases hg : (st.activeSessions.filter (fun s => s.id ≠ id)).getLast? with
          | none => exact ⟨hfl1, hfl6, hids⟩
          | some s => exact ⟨hfl1, hfl6, hids⟩
        · rw [if_neg hacid]
          exact ⟨hfl1, hfl6, hids⟩

theorem wf_applyOps (ops : List SessionOp) : ∀ st : SessionsState,
    WF st → opsOK st ops → WF (applyOps st ops) := by
  induction ops with
  | nil =>
      intro st h _
      simpa [applyOps] using h
  | cons op rest ih =>
      intro st h hok
      have h1 := wf_applyOp st op h hok.1
      have happ : applyOps st (op :: rest) = applyOps (applyOp st op) rest := by
        simp [applyOps]
      rw [happ]
      exact ih _ h1 hok.2

theorem active_applyOp (st : SessionsState) (op : SessionOp)
    (hwf : WF st) (hau : ActiveUnique st) (hok : opOK st op)
    (hnl : ∀ id fid, op = SessionOp.tabClose id fid →
      2 ≤ st.activeSessions.length) :
    ActiveUnique (applyOp st op) := by
  obtain ⟨h1, h6, hnd⟩ := hwf
  cases op with
  | newChat nid now =>
      have hfresh : (newSessionObj nid now).id ∉ sessionIds st.activeSessions :=
        hok
      have hff := create_step_facts st.activeSessions st.activeSessionId
        (newSessionObj nid now) h1 h6 hnd hfresh
      exact hff.2.2.2
  | tabClick id now =>
      show ActiveUnique (handleTabClick st id now)
      unfold handleTabClick
      by_cases h : st.activeSessionId = id
      · rw [if_pos h]
        exact hau
      · rw [if_neg h]
        unfold ActiveUnique
        show (sessionIds (st.activeSessions.map (touchSession id now))).count id = 1
        rw [sessionIds_map_id_preserving _ (touchSession_id id now) _]
        exact count_eq_one_of_nodup_mem _ _ hnd hok
  | loadChat tid now =>
      show ActiveUnique (handleLoadChat st tid now)
      unfold handleLoadChat
      by_cases he : tid = ""
      · rw [if_pos he]
        exact hau
      · rw [if_neg he]
        by_cases hp : st.activeSessions.any (fun s => s.id = tid)
        · rw [if_pos hp]
          unfold ActiveUnique
          show (sessionIds (st.activeSessions.map (touchSession tid now))).count tid = 1
          rw [sessionIds_map_id_preserving _ (touchSession_id tid now) _]
          obtain ⟨s, hs, hid⟩ := List.any_eq_true.mp hp
          refine count_eq_one_of_nodup_mem _ _ hnd ?_
          have : s.id = tid := by simpa using hid
          exact this ▸ List.mem_map_of_mem (fun u => u.id) hs
        · rw [if_neg hp]
          have hfresh : (loadingSessionObj tid now).id ∉ sessionIds st.activeSessions := by
            intro hm
            apply hp
            obtain ⟨s, hs, hid⟩ := List.mem_map.mp hm
            exact List.any_eq_true.mpr ⟨s, hs, by simpa using hid⟩
          have hff := create_step_facts st.activeSessions st.activeSessionId
            (loadingSessionObj tid now) h1 h6 hnd hfresh
          exact hff.2.2.2
  | loadDone tid ms ti =>
      show ActiveUnique (loadFetchDone st tid ms ti)
      unfold loadFetchDone ActiveUnique
      show (sessionIds (st.activeSessions.map _)).count st.activeSessionId = 1
      rw [sessionIds_map_id_preserving _ (fun s => by split <;> rfl) _]
      exact hau
  | tabClose id fid =>
      have h2 : 2 ≤ st.activeSessions.length := hnl id fid rfl
      show ActiveUnique (handleTabClose st id fid)
      unfold handleTabClose
      rw [if_neg (by omega)]
      have hsub : (st.activeSessions.filter (fun s => s.id ≠ id)).Sublist
          st.activeSessions := List.filter_sublist _
      have hids : (sessionIds (st.activeSessions.filter
          (fun s => s.id ≠ id))).Nodup := hnd.sublist (hsub.map _)
      by_cases hacid : st.activeSessionId = id
      · rw [if_pos hacid]
        have hflen := filter_ne_length_ge st.activeSessions id hnd
        cases hg : (st.activeSessions.filter (fun s => s.id ≠ id)).getLast? with
        | none =>
            exfalso
            rw [List.getLast?_eq_none_iff] at hg
            rw [hg] at hflen
            simp at hflen
            omega
        | some s =>
            have hs : s ∈ st.activeSessions.filter (fun t => t.id ≠ id) := by
              have hmem : s ∈ (st.activeSessions.filter
                  (fun t => t.id ≠ id)).getLast? := by
                rw [hg]
                rfl
              obtain ⟨hne, heq⟩ := List.mem_getLast?_eq_getLast hmem
              rw [heq]
              exact List.getLast_mem hne
            unfold ActiveUnique
            refine count_eq_one_of_nodup_mem _ _ hids ?_
            exact List.mem_map_of_mem (fun u => u.id) hs
      · rw [if_neg hacid]
        unfold ActiveUnique
        show (sessionIds (st.activeSessions.filter
            (fun s => s.id ≠ id))).count st.activeSessionId = 1
        rw [sessionIds_filter_ne]
        rw [count_filter_ne _ _ _ hacid]
        exact hau

/-- C7 counterexample: a visible non-Leader context re-checking a
record whose age (4000ms) exceeds VISIBILITY_FAILOVER_MS does NOT
become Leader when the stale record names the context itself — the
code also requires the record to name a different tab. -/
theorem c7_counterexample :
    VISIBILITY_FAILOVER_MS < 4000 - 0 ∧
    handleVisibilityChange ("tab_a") 4000 false false
        (Stored.valid { tabId := "tab_a", timestamp := 0 }) = Except.ok false := by
  constructor
  · decide
  · rfl

/-- C7 (amended): a visible non-Leader context re-checks the ownership
record against VISIBILITY_FAILOVER_MS (3s, not the passive 5s): given
a parsable-or-absent record it becomes Leader exactly when the record
is absent, or its age strictly exceeds 3s and it names a different
context; otherwise it remains Follower (and it never throws on such
input). -/
theorem c7_aggressive_failover_amended (self : String) (now : Nat)
    (stored : Stored LeaderRec) (hp : ∀ raw, stored ≠ Stored.corrupt raw) :
    (handleVisibilityChange self now false false stored = Except.ok true ↔
      (stored = Stored.absent ∨
        ∃ rec, stored = Stored.valid rec ∧
          VISIBILITY_FAILOVER_MS < now - rec.timestamp ∧ rec.tabId ≠ self)) ∧
    (handleVisibilityChange self now false false stored = Except.ok true ∨
      handleVisibilityChange self now false false stored = Except.ok false) := by
  cases stored with
  | absent =>
      simp [handleVisibilityChange, attemptAggressiveLeaderElection]
  | corrupt raw => exact absurd rfl (hp raw)
  | valid rec =>
      by_cases h : VISIBILITY_FAILOVER_MS < now - rec.timestamp ∧ rec.tabId ≠ self
      · constructor
        · simp only [handleVisibilityChange, attemptAggressiveLeaderElection, if_pos h]
          constructor
          · intro _
            exact Or.inr ⟨rec, rfl, h⟩
          · intro _
            rfl
        · simp [handleVisibilityChange, attemptAggressiveLeaderElection, if_pos h]
      · constructor
        · simp only [handleVisibilityChange, attemptAggressiveLeaderElection, if_neg h]
          constructor
          · intro he
            exact absurd he (by simp)
          · rintro (he | ⟨rec2, he, hrest⟩)
            · exact absurd he (by simp)
            · cases he
              exact absurd hrest h
        · simp [handleVisibilityChange, attemptAggressiveLeaderElection, if_neg h]

/-- C7 witness: a visible non-Leader context with no ownership record
at all becomes Leader. -/
theorem c7_witness :
    handleVisibilityChange ("tab_b") 5000 false false
        (Stored.absent : Stored LeaderRec) = Except.ok true :=
  (c7_aggressive_failover_amended ("tab_b") 5000 Stored.absent
    (fun _ h => nomatch h)).1.mpr (Or.inl rfl)

/-- C8 counterexample: closing the single remaining session resets it
in place with a fresh id (here "b") but leaves `activeSessionId`
pointing at the old id "a", so no session in the collection carries
the active pointer's id — "exactly one active session whose id is
present in the collection" fails after this sequence. -/
theorem c8_counterexample :
    (applyOps (initialState ("a") 0)
        [SessionOp.tabClose ("a") ("b")]).activeSessions.length = 1 ∧
    sessionIds (applyOps (initialState ("a") 0)
        [SessionOp.tabClose ("a") ("b")]).activeSessions = ["b"] ∧
    (applyOps (initialState ("a") 0)
        [SessionOp.tabClose ("a") ("b")]).activeSessionId = "a" ∧
    ¬ ActiveUnique (applyOps (initialState ("a") 0)
        [SessionOp.tabClose ("a") ("b")]) := by
  refine ⟨rfl, rfl, rfl, ?_⟩
  unfold ActiveUnique
  decide

/-- C8 (amended): from the initial single-session state, every
sequence of create/activate/load/close operations (with fresh
generated ids and activations of present tabs) keeps the session count
in [1, MAX_ACTIVE_SESSIONS] with pairwise distinct ids; every single
operation except closing the last remaining session preserves "exactly
one session carries the active pointer's id"; and closing the last
remaining session still resets it in place, leaving one session (but a
stale active pointer, as the counterexample shows). -/
theorem c8_session_invariants_amended :
    (∀ i t, WF (initialState i t) ∧ ActiveUnique (initialState i t)) ∧
    (∀ st ops, WF st → opsOK st ops → WF (applyOps st ops)) ∧
    (∀ st op, WF st → ActiveUnique st → opOK st op →
      (∀ id fid, op = SessionOp.tabClose id fid →
        2 ≤ st.activeSessions.length) →
      ActiveUnique (applyOp st op)) ∧
    (∀ st id fid, st.activeSessions.length = 1 →
      (applyOp st (SessionOp.tabClose id fid)).activeSessions.length = 1) := by
  refine ⟨?_, ?_, ?_, ?_⟩
  · intro i t
    refine ⟨⟨?_, ?_, ?_⟩, ?_⟩
    · simp [initialState]
    · simp [initialState, MAX_ACTIVE_SESSIONS]
    · simp [initialState, sessionIds]
    · simp [ActiveUnique, initialState, sessionIds, newSessionObj]
  · intro st ops h hok
    exact wf_applyOps ops st h hok
  · intro st op h hau hok hnl
    exact active_applyOp st op h hau hok hnl
  · intro st id fid hl1
    show (handleTabClose st id fid).activeSessions.length = 1
    unfold handleTabClose
    rw [if_pos hl1]
    simpa using hl1

/-- C9: every frame `_sendViaWebSocket` builds is a JSON object whose
`threadId` field equals the threadId argument: a parsable payload is
spread with `threadId` injected on top (overwriting any it carried),
an unparsable one is wrapped as ⦃threadId, content⦄; and the function
only ever transmits or queues exactly that frame. -/
theorem c9_frame_threadId (parse : String → Option Json)
    (threadId : String) (payload : SendPayload) (st : WSState) :
    isObj (sendFrame parse threadId payload) = true ∧
    lookupKey (sendFrame parse threadId payload) ("threadId")
        = some (Json.str threadId) ∧
    (∀ s v, payload = SendPayload.text s → parse s = some v →
      sendFrame parse threadId payload
        = Json.obj (setKey (spreadFields v) ("threadId") (Json.str threadId))) ∧
    (∀ s, payload = SendPayload.text s → parse s = none →
      sendFrame parse threadId payload
        = Json.obj [("threadId", Json.str threadId), ("content", Json.str s)]) ∧
    (((sendViaWebSocket parse st threadId payload).1.sent = st.sent ∧
      (sendViaWebSocket parse st threadId payload).1.messageQueue
        = st.messageQueue) ∨
     (sendViaWebSocket parse st threadId payload).1.sent
        = st.sent ++ [sendFrame parse threadId payload] ∨
     (sendViaWebSocket parse st threadId payload).1.messageQueue
        = st.messageQueue ++ [sendFrame parse threadId payload]) := by
  refine ⟨?_, ?_, ?_, ?_, ?_⟩
  · cases payload with
    | text s => cases hp : parse s <;> simp [sendFrame, hp, isObj]
    | val v => simp [sendFrame, isObj]
  · cases payload with
    | text s =>
        cases hp : parse s with
        | none => simp [sendFrame, hp, lookupKey, List.lookup]
        | some v => simp [sendFrame, hp, lookupKey, lookup_setKey]
    | val v => simp [sendFrame, lookupKey, lookup_setKey]
  · rintro s v rfl hp
    simp [sendFrame, hp]
  · rintro s rfl hp
    simp [sendFrame, hp]
  · unfold sendViaWebSocket
    by_cases hL : st.isLeader = false
    · simp [hL]
    · simp only [hL, if_false]
      by_cases h1 : st.socket = some ReadyState.open_
      · simp [h1]
      · by_cases h2 : st.socket = some ReadyState.connecting
        · simp [h1, h2]
        · simp [h1, h2]

/-- C10: `hasPendingResponses` is true exactly when the stored value
is a parsable non-empty list — no TTL filter — so a list whose single
entry is exactly CACHE_EXPIRY_MS old reports pending responses while
the drain returns the empty list. -/
theorem c10_hasPending_no_ttl (stored : Stored (List CacheEntry)) :
    (hasPendingResponses stored = true ↔
        ∃ entries, stored = Stored.valid entries ∧ entries ≠ []) ∧
    hasPendingResponses (Stored.valid [{ response := Json.null, cachedAt := 0 }])
        = true ∧
    (getAndClearCache CACHE_EXPIRY_MS
        (Stored.valid [{ response := Json.null, cachedAt := 0 }])).1 = [] := by
  refine ⟨?_, rfl, ?_⟩
  · cases stored with
    | absent => simp [hasPendingResponses]
    | corrupt raw => simp [hasPendingResponses]
    | valid entries =>
        simp only [hasPendingResponses, gt_iff_lt, decide_eq_true_eq,
          List.length_pos, Stored.valid.injEq]
        constructor
        · intro h
          exact ⟨entries, rfl, h⟩
        · rintro ⟨es, rfl, h⟩
          exact h
  · show ([({ response := Json.null, cachedAt := 0 } : CacheEntry)].filter
        (fun e => CACHE_EXPIRY_MS - e.cachedAt < CACHE_EXPIRY_MS)).map
          (fun e => e.response) = []
    simp [CACHE_EXPIRY_MS]

end EximGPT
